import Mathlib

/-
Verification of the process-execution and job-control engine of the ox shell.

The definitions below are a shallow embedding of the Rust source:
  src/src/execute.rs  (RustFd, ProcIO, RshWait, fork_instruction, the tree
                       walker including handle_loop, handle_for, handle_redirs,
                       and ExecDispatcher)
  src/src/shellenv.rs (Job, JobTable::print_jobs)

Machine integers are modelled as Int (raw file descriptors, exit codes,
process ids) or Nat (signal numbers, list indices); Rust pattern matches
become Lean pattern matches; fallible operations return Except; panics
(unwrap on None, unimplemented, index out of bounds) are modelled as a
distinct error outcome or as Option.none.  Operating-system side effects
(the process file-descriptor table) are modelled as explicit state where a
claim needs them; where only success/failure of a raw syscall matters it is
abstracted by an explicit oracle parameter.
-/

/-- Shell error values, modelled from their two construction sites used by
execute.rs: ShError::from_internal(msg) and ShError::from_io()
(the defining module event.rs only reaches this development through these
constructors). -/
inductive ShError where
  | internal (msg : String)
  | ioErr
  deriving DecidableEq, Repr

/-- Wait statuses, from the RshWait enum in src/src/execute.rs (lines
272-289).  The nix Signal enum is modelled by the signal number. -/
inductive RshWait where
  | Success
  | Fail (code : Int) (cmd : Option String)
  | Signaled (sig : Nat)
  | Stopped (sig : Nat)
  | Terminated (signal : Int)
  | Continued
  | Running
  | Killed (signal : Int)
  | TimeOut
  | SIGRETURN
  | SIGCONT
  | SIGBREAK
  | SIGRSHEXIT
  deriving DecidableEq, Repr

/-- RshWait::new() returns Success. -/
def RshWait.new : RshWait := RshWait.Success

/-- An owned file descriptor: struct RustFd { fd: RawFd } from
src/src/execute.rs. -/
structure RustFd where
  fd : Int
  deriving DecidableEq, Repr

/-- RustFd::is_valid from src/src/execute.rs lines 233-235:
returns self.fd > 0. -/
def RustFd.is_valid (f : RustFd) : Bool := f.fd > 0

/-- RustFd::new from src/src/execute.rs lines 114-119: rejects negative
descriptors, accepts every other value. -/
def RustFd.new (fd : Int) : Except ShError RustFd :=
  if fd < 0 then
    .error (.internal "Attempted to create a new RustFd from a negative FD")
  else
    .ok { fd := fd }

/-- RustFd::close from src/src/execute.rs lines 220-227.  The raw close(2)
syscall is abstracted by the oracle osClose (true = the kernel accepts the
close); on success the stored descriptor is replaced by the sentinel -1. -/
def RustFd.close (osClose : Int → Bool) (f : RustFd) : Except ShError RustFd :=
  if ¬ f.is_valid then
    .error (.internal "Attempted to close an invalid RustFd")
  else if osClose f.fd then
    .ok { fd := -1 }
  else
    .error .ioErr

/-- C3: the claim reads is-valid() as true exactly on non-negative
descriptors, with 0 valid.  The code tests fd > 0, so descriptor 0 is
reported invalid even though RustFd::new accepts it (it rejects only
negative values, and close() uses -1 as the invalid sentinel).  This
theorem evaluates the embedded code at the failing input fd = 0. -/
theorem rustfd_is_valid_rejects_zero :
    RustFd.is_valid { fd := 0 } = false ∧
    RustFd.new 0 = .ok { fd := 0 } ∧
    RustFd.new (-1) =
      .error (.internal "Attempted to create a new RustFd from a negative FD") ∧
    RustFd.is_valid { fd := 1 } = true := by
  exact ⟨rfl, rfl, rfl, rfl⟩

/-- C7: after a successful close(), is-valid() is false and a second
close() returns an error (it refuses to close the sentinel value rather
than double-closing a possibly reused descriptor number). -/
theorem rustfd_close_then_close_fails (osClose : Int → Bool) (f g : RustFd)
    (h : RustFd.close osClose f = .ok g) :
    g.is_valid = false ∧
    RustFd.close osClose g =
      .error (.internal "Attempted to close an invalid RustFd") := by
  unfold RustFd.close at h
  by_cases hv : f.is_valid
  · rw [if_neg (by simp [hv])] at h
    by_cases hc : osClose f.fd
    · rw [if_pos hc] at h
      cases h
      exact ⟨rfl, rfl⟩
    · rw [if_neg hc] at h
      cases h
  · rw [if_pos (by simp [hv])] at h
    cases h

/-- Witness for C7 at the concrete descriptor 3 with a kernel that accepts
every close. -/
theorem rustfd_close_then_close_fails_witness :
    RustFd.close (fun _ => true) { fd := 3 } = .ok { fd := -1 } ∧
    RustFd.is_valid { fd := -1 } = false ∧
    RustFd.close (fun _ => true) { fd := -1 } =
      .error (.internal "Attempted to close an invalid RustFd") := by
  refine ⟨rfl, ?_, ?_⟩
  · exact (rustfd_close_then_close_fails (fun _ => true) { fd := 3 }
      { fd := -1 } rfl).1
  · exact (rustfd_close_then_close_fails (fun _ => true) { fd := 3 }
      { fd := -1 } rfl).2

/-- Errno values distinguished by the wait loop in fork_instruction:
EINTR is retried, every other errno is a panic. -/
inductive Errno where
  | EINTR
  | other (n : Nat)
  deriving DecidableEq, Repr

/-- nix WaitStatus values as matched by the wait loop in fork_instruction
(src/src/execute.rs lines 73-86): Exited and Signaled are handled, every
other variant hits the unimplemented branch. -/
inductive WaitStatus where
  | Exited (pid : Int) (code : Int)
  | Signaled (pid : Int) (sig : Nat) (coreDumped : Bool)
  | Stopped (pid : Int) (sig : Nat)
  | Continued (pid : Int)
  | StillAlive
  deriving DecidableEq, Repr

/-- The parent wait loop of fork_instruction (src/src/execute.rs lines
73-86), run in the foreground (non-background, non-in-pipe) branch after
the fork.  The successive results of the blocking waitpid call are given
as a list; none models a panic (the unimplemented wait-status arm or a
fatal wait errno) or a wait that never produces a result. -/
def fork_wait_loop (cmd : Option String) :
    List (Except Errno WaitStatus) → Option RshWait
  | [] => none
  | .ok (.Exited _ code) :: _ =>
      some (match code with
        | 0 => RshWait.Success
        | c => RshWait.Fail c cmd)
  | .ok (.Signaled _ sig _) :: _ => some (RshWait.Signaled sig)
  | .ok _ :: _ => none
  | .error .EINTR :: rest => fork_wait_loop cmd rest
  | .error (.other _) :: _ => none

/-- C1: the foreground parent wait loop maps a child exit with code 0 to
Success, a nonzero exit code c to Fail c (originating command name), and a
signal termination to Signaled sig; EINTR results are retried
transparently (any number of leading EINTR results is skipped and an
EINTR at the head leaves the loop result unchanged). -/
theorem fork_wait_loop_spec (cmd : Option String) (k : Nat) (pid : Int) :
    (∀ code : Int,
      fork_wait_loop cmd
        (List.replicate k (.error .EINTR) ++ [.ok (.Exited pid code)]) =
        some (if code = 0 then RshWait.Success else RshWait.Fail code cmd)) ∧
    (∀ (sig : Nat) (cd : Bool),
      fork_wait_loop cmd
        (List.replicate k (.error .EINTR) ++ [.ok (.Signaled pid sig cd)]) =
        some (RshWait.Signaled sig)) ∧
    (∀ rest, fork_wait_loop cmd (.error .EINTR :: rest) =
      fork_wait_loop cmd rest) := by
  induction k with
  | zero =>
    refine ⟨?_, fun sig cd => rfl, fun rest => rfl⟩
    intro code
    by_cases h : code = 0
    · subst h
      simp [fork_wait_loop]
    · rw [if_neg h]
      cases code with
      | ofNat n =>
        cases n with
        | zero => exact absurd rfl h
        | succ m => rfl
      | negSucc n => rfl
  | succ n ih =>
    refine ⟨fun code => ?_, fun sig cd => ?_, fun rest => rfl⟩
    · rw [List.replicate_succ, List.cons_append]
      exact (ih.1 code)
    · rw [List.replicate_succ, List.cons_append]
      exact (ih.2.1 sig cd)

/-- The while/until evaluator handle_loop from src/src/execute.rs lines
614-645, with the walks of the condition and body subtrees abstracted as
streams of their resulting statuses (conds i, bodies i give the status of
the i-th evaluation of the condition resp. body subtree).  isWhile = true
is the condition = true case of the source.  The first argument is fuel;
none models a loop that has not terminated within the fuel.  Faithful to
the source, the status returned by the body walk is only stored into
last_status and is never inspected: no control status is consumed. -/
def handle_loop_iter (isWhile : Bool) (conds bodies : Nat → RshWait) :
    Nat → Nat → RshWait → Option RshWait
  | 0, _, _ => none
  | fuel + 1, i, last =>
    let condition_status := conds i
    if (if isWhile then ¬ (condition_status = RshWait.Success)
        else condition_status = RshWait.Success) then
      some last
    else
      handle_loop_iter isWhile conds bodies fuel (i + 1) (bodies i)

/-- handle_loop: last_status starts as RshWait::new() (Success) and the
iteration starts at the first condition evaluation. -/
def handle_loop (isWhile : Bool) (conds bodies : Nat → RshWait)
    (fuel : Nat) : Option RshWait :=
  handle_loop_iter isWhile conds bodies fuel 0 RshWait.new

/-- ExecDispatcher::run from src/src/execute.rs lines 440-447, with the
walk of each received tree abstracted by its resulting status: the loop
overwrites status with each tree result and returns the last one
unchanged. -/
def exec_dispatcher_run (results : List RshWait) : RshWait :=
  results.foldl (fun _ s => s) RshWait.new

/-- C2: the claim says the four control statuses are consumed by the
nearest enclosing loop frame and never reach the terminal-facing status
output.  handle_loop never inspects the body status, so a SIGBREAK
produced by the loop body neither breaks the loop nor is consumed: it is
stored into last_status and returned unchanged once the condition fails,
and ExecDispatcher::run then returns it unchanged as the terminal-facing
status.  Failing input: a while loop whose condition succeeds once and
then fails, and whose body yields SIGBREAK. -/
theorem handle_loop_propagates_sigbreak :
    handle_loop true
      (fun i => if i = 0 then RshWait.Success else RshWait.Fail 1 none)
      (fun _ => RshWait.SIGBREAK) 3 = some RshWait.SIGBREAK ∧
    handle_loop true
      (fun _ => RshWait.Success)
      (fun _ => RshWait.SIGBREAK) 3 = none ∧
    exec_dispatcher_run [RshWait.SIGBREAK] = RshWait.SIGBREAK := by
  exact ⟨rfl, rfl, rfl⟩

/-- The iteration core of handle_for from src/src/execute.rs lines
578-612, over the already expanded, flattened iteration list.  Each
iteration pops the front element, binds the variable at var_index (the
write to the variable store is recorded as the produced pair), then sets
iteration_count += 1 and var_index = iteration_count % var_count, and runs
the body once (one produced pair = one body run).  List.getD mirrors the
loop_vars[var_index] indexing. -/
def handle_for_iter (loop_vars : List String) :
    Nat → Nat → List String → List (String × String)
  | _, _, [] => []
  | var_index, iteration_count, current_val :: rest =>
    (loop_vars.getD var_index "", current_val) ::
      handle_for_iter loop_vars ((iteration_count + 1) % loop_vars.length)
        (iteration_count + 1) rest

/-- handle_for: var_index and iteration_count start at 0. -/
def handle_for_bindings (loop_vars loop_arr : List String) :
    List (String × String) :=
  handle_for_iter loop_vars 0 0 loop_arr

lemma handle_for_iter_length (loop_vars : List String) (arr : List String) :
    ∀ vi k, (handle_for_iter loop_vars vi k arr).length = arr.length := by
  induction arr with
  | nil => intro vi k; rfl
  | cons v rest ih =>
    intro vi k
    simp only [handle_for_iter, List.length_cons, ih]

lemma handle_for_iter_get? (loop_vars : List String) (arr : List String) :
    ∀ k i, (handle_for_iter loop_vars (k % loop_vars.length) k arr).get? i =
      (arr.get? i).map
        (fun v => (loop_vars.getD ((k + i) % loop_vars.length) "", v)) := by
  induction arr with
  | nil => intro k i; cases i <;> rfl
  | cons v rest ih =>
    intro k i
    cases i with
    | zero => rfl
    | succ j =>
      show (handle_for_iter loop_vars ((k + 1) % loop_vars.length)
        (k + 1) rest).get? j = _
      have harith : k + (j + 1) = (k + 1) + j := by omega
      rw [ih (k + 1) j]
      simp only [List.get?_cons_succ, harith]

/-- C8: with N = loop_vars.length ≥ 1 variables and M elements, handle_for
produces exactly M bindings (one body run per element) and the i-th
binding (0-based) assigns element i to the variable at position
i mod N. -/
theorem handle_for_round_robin (loop_vars loop_arr : List String)
    (hv : loop_vars ≠ []) :
    (handle_for_bindings loop_vars loop_arr).length = loop_arr.length ∧
    ∀ i, (handle_for_bindings loop_vars loop_arr).get? i =
      (loop_arr.get? i).map
        (fun v => (loop_vars.getD (i % loop_vars.length) "", v)) := by
  have hn : loop_vars.length ≠ 0 := by
    simpa using hv
  constructor
  · exact handle_for_iter_length loop_vars loop_arr 0 0
  · intro i
    have h0 : (0 : Nat) % loop_vars.length = 0 := Nat.zero_mod _
    have := handle_for_iter_get? loop_vars loop_arr 0 i
    rw [h0] at this
    simpa [handle_for_bindings] using this

/-- Witness for C8: the spec example with variables a, b and elements
1..5; the fifth binding (index 4) is a = 5 and the second (index 1) is
b = 2. -/
theorem handle_for_round_robin_witness :
    (handle_for_bindings ["a", "b"] ["1", "2", "3", "4", "5"]).length = 5 ∧
    (handle_for_bindings ["a", "b"] ["1", "2", "3", "4", "5"]).get? 4 =
      some ("a", "5") ∧
    (handle_for_bindings ["a", "b"] ["1", "2", "3", "4", "5"]).get? 1 =
      some ("b", "2") := by
  have h := handle_for_round_robin ["a", "b"] ["1", "2", "3", "4", "5"]
    (by decide)
  exact ⟨h.1, by rw [h.2 4]; rfl, by rw [h.2 1]; rfl⟩

/-- A job, from the Job struct in src/src/shellenv.rs lines 37-45.  Pid
values are modelled by the process id number. -/
structure Job where
  job_id : Int
  pids : List Int
  commands : List String
  pgid : Int
  statuses : List RshWait
  active : Bool
  deriving DecidableEq, Repr

/-- Job::update_status from src/src/shellenv.rs lines 55-62: in-bounds
indices overwrite the status entry; an out-of-bounds index only prints an
error message and changes nothing. -/
def Job.update_status (j : Job) (pid_index : Nat) (new_stat : RshWait) :
    Job :=
  if pid_index < j.statuses.length then
    { j with statuses := j.statuses.set pid_index new_stat }
  else
    j

/-- C9: update_status with an in-bounds stage index replaces exactly the
status at that index, leaving every other status entry and every other
Job field unchanged; with an out-of-bounds index the Job is left entirely
unchanged. -/
theorem job_update_status_frame (j : Job) (i : Nat) (s : RshWait) :
    (j.update_status i s).job_id = j.job_id ∧
    (j.update_status i s).pids = j.pids ∧
    (j.update_status i s).commands = j.commands ∧
    (j.update_status i s).pgid = j.pgid ∧
    (j.update_status i s).active = j.active ∧
    (i < j.statuses.length →
      ((j.update_status i s).statuses.get? i = some s ∧
       ∀ i', i' ≠ i →
         (j.update_status i s).statuses.get? i' = j.statuses.get? i')) ∧
    (¬ i < j.statuses.length → j.update_status i s = j) := by
  by_cases h : i < j.statuses.length
  · have e : j.update_status i s = { j with statuses := j.statuses.set i s } := by
      unfold Job.update_status
      rw [if_pos h]
    rw [e]
    refine ⟨rfl, rfl, rfl, rfl, rfl, fun _ => ⟨?_, ?_⟩, fun hc => absurd h hc⟩
    · exact List.get?_set_eq_of_lt s h
    · intro i' hne
      exact List.get?_set_ne s j.statuses hne.symm
  · have e : j.update_status i s = j := by
      unfold Job.update_status
      rw [if_neg h]
    rw [e]
    exact ⟨rfl, rfl, rfl, rfl, rfl, fun hc => absurd hc h, fun _ => rfl⟩

/-- A concrete two-stage job used by the C9 and C10 witnesses. -/
def demo_job : Job :=
  { job_id := 1, pids := [100, 101], commands := ["cat", "grep"],
    pgid := 100, statuses := [RshWait.Running, RshWait.Running],
    active := true }

/-- Witness for C9 at the concrete job demo_job, stage index 1 (and the
out-of-bounds index 5). -/
theorem job_update_status_frame_witness :
    (1 < demo_job.statuses.length ∧
     (demo_job.update_status 1 RshWait.Success).statuses.get? 1 =
       some RshWait.Success ∧
     (demo_job.update_status 1 RshWait.Success).statuses.get? 0 =
       demo_job.statuses.get? 0 ∧
     (demo_job.update_status 1 RshWait.Success).job_id = demo_job.job_id) ∧
    (¬ 5 < demo_job.statuses.length ∧
     demo_job.update_status 5 RshWait.Success = demo_job) := by
  have h := job_update_status_frame demo_job 1 RshWait.Success
  have h5 := job_update_status_frame demo_job 5 RshWait.Success
  have hb : 1 < demo_job.statuses.length := by decide
  have hb5 : ¬ 5 < demo_job.statuses.length := by decide
  exact ⟨⟨hb, (h.2.2.2.2.2.1 hb).1, (h.2.2.2.2.2.1 hb).2 0 (by decide), h.1⟩,
    ⟨hb5, h5.2.2.2.2.2.2 hb5⟩⟩

/-- The job display flags from src/src/shellenv.rs lines 25-35, modelled
as one Bool per bit. -/
structure JobFlags where
  long : Bool
  pids : Bool
  new_only : Bool
  running : Bool
  stopped : Bool
  init : Bool
  deriving DecidableEq, Repr

/-- The matches(status, RshWait::Running) test of print_jobs. -/
def RshWait.is_running_stat : RshWait → Bool
  | RshWait.Running => true
  | _ => false

/-- The matches(status, RshWait::Stopped building) test of print_jobs. -/
def RshWait.is_stopped_stat : RshWait → Bool
  | RshWait.Stopped _ => true
  | _ => false

/-- The Rust cast `id as usize` applied to the i64-widened i32 job id:
two's-complement reinterpretation modulo 2^64. -/
def usize_cast (i : Int) : Nat := (i % (2 ^ 64 : Int)).toNat

/-- The per-job filter step of JobTable::print_jobs from
src/src/shellenv.rs lines 255-266.  It looks the job status up at
job.statuses.get(job.job_id as usize).  some false models the continue
(job skipped), some true models falling through to the print, none models
the panic of .unwrap() on a missing entry. -/
def print_jobs_filter (flags : JobFlags) (job : Job) : Option Bool :=
  if flags.running then
    match job.statuses.get? (usize_cast job.job_id) with
    | none => none
    | some st =>
      if ¬ st.is_running_stat then some false
      else if flags.stopped then
        match job.statuses.get? (usize_cast job.job_id) with
        | none => none
        | some st2 => if ¬ st2.is_stopped_stat then some false else some true
      else some true
  else if flags.stopped then
    match job.statuses.get? (usize_cast job.job_id) with
    | none => none
    | some st2 => if ¬ st2.is_stopped_stat then some false else some true
  else some true

/-- C10: with the RUNNING or STOPPED filter flag set, print_jobs inspects
the per-stage status list at index job_id (not at a pipeline-stage
index); whenever that index is at or beyond the end of the status list
the lookup yields nothing and the unwrap aborts (modelled by none), and
when it is in bounds the decision is driven by the entry at index
job_id. -/
theorem print_jobs_indexes_by_job_id (flags : JobFlags) (job : Job)
    (hflag : flags.running = true ∨ flags.stopped = true) :
    (job.statuses.length ≤ usize_cast job.job_id →
      print_jobs_filter flags job = none) ∧
    (flags.running = true → flags.stopped = false →
      ∀ st, job.statuses.get? (usize_cast job.job_id) = some st →
        print_jobs_filter flags job =
          some (if st.is_running_stat then true else false)) := by
  constructor
  · intro hoob
    have hnone : job.statuses.get? (usize_cast job.job_id) = none :=
      List.get?_eq_none.mpr hoob
    unfold print_jobs_filter
    rcases hflag with hr | hs
    · rw [hr, if_pos rfl, hnone]
    · by_cases hr : flags.running
      · rw [if_pos hr, hnone]
      · rw [if_neg hr, hs, if_pos rfl, hnone]
  · intro hr hs st hst
    unfold print_jobs_filter
    rw [hr, if_pos rfl, hst, hs]
    by_cases hrun : st.is_running_stat
    · simp [hrun]
    · simp [hrun]

/-- Witness for C10: demo_job has id 1 and a two-stage status list, so
the lookup lands in bounds at index 1 and drives the decision; a one-stage
job with id 1 makes the filter abort.  Both follow from the theorem at
concrete inputs with the RUNNING flag set. -/
theorem print_jobs_indexes_by_job_id_witness :
    ({ job_id := 1, pids := [100], commands := ["cat"],
       statuses := [RshWait.Running], pgid := 100, active := true
       : Job }).statuses.length ≤ usize_cast 1 ∧
    print_jobs_filter
      { long := false, pids := false, new_only := false, running := true,
        stopped := false, init := false }
      { job_id := 1, pids := [100], commands := ["cat"],
        statuses := [RshWait.Running], pgid := 100, active := true } =
      none ∧
    print_jobs_filter
      { long := false, pids := false, new_only := false, running := true,
        stopped := false, init := false } demo_job = some true := by
  refine ⟨by decide, ?_, ?_⟩
  · exact (print_jobs_indexes_by_job_id
      { long := false, pids := false, new_only := false, running := true,
        stopped := false, init := false }
      { job_id := 1, pids := [100], commands := ["cat"],
        statuses := [RshWait.Running], pgid := 100, active := true }
      (Or.inl rfl)).1 (by decide)
  · have h := (print_jobs_indexes_by_job_id
      { long := false, pids := false, new_only := false, running := true,
        stopped := false, init := false } demo_job (Or.inl rfl)).2
      rfl rfl RshWait.Running rfl
    simpa using h

/-- The I/O bundle, struct ProcIO from src/src/execute.rs lines 328-334.
The Arc Mutex sharing wrappers are transparent to the sequential code
modelled here; the backup map is an association list from real descriptor
number to the saved duplicate. -/
structure ProcIo where
  stdin : Option RustFd
  stdout : Option RustFd
  stderr : Option RustFd
  backup : List (Int × RustFd)
  deriving DecidableEq, Repr

/-- One statement of ProcIO::close_all: if the slot holds a descriptor,
close it, recording the attempted descriptor number; the error of a
failed close is returned. -/
def close_step (osClose : Int → Bool) (o : Option RustFd) :
    Except ShError Unit × List Int :=
  match o with
  | none => (.ok (), [])
  | some f =>
    match f.close osClose with
    | .error e => (.error e, [f.fd])
    | .ok _ => (.ok (), [f.fd])

/-- ProcIO::close_all from src/src/execute.rs lines 348-359: closes
stdin, then stdout, then stderr, each close result propagated with the
question-mark operator (an early return).  The second component collects
the descriptor numbers on which a close was attempted. -/
def ProcIo.close_all (osClose : Int → Bool) (io : ProcIo) :
    Except ShError Unit × List Int :=
  match close_step osClose io.stdin with
  | (.error e, a1) => (.error e, a1)
  | (.ok _, a1) =>
    match close_step osClose io.stdout with
    | (.error e, a2) => (.error e, a1 ++ a2)
    | (.ok _, a2) =>
      match close_step osClose io.stderr with
      | (.error e, a3) => (.error e, a1 ++ a2 ++ a3)
      | (.ok _, a3) => (.ok (), a1 ++ a2 ++ a3)

/-- C6 counterexample: the claim says all three close attempts are made
even when an earlier one fails.  With a bundle whose stdin descriptor is
already closed (sentinel -1) and whose stdout and stderr descriptors 7
and 8 are open, close_all fails on stdin and never attempts the stdout or
stderr closes. -/
theorem close_all_skips_later_closes :
    (ProcIo.close_all (fun _ => true)
      { stdin := some { fd := -1 }, stdout := some { fd := 7 },
        stderr := some { fd := 8 }, backup := [] }).2 = [-1] ∧
    (ProcIo.close_all (fun _ => true)
      { stdin := some { fd := -1 }, stdout := some { fd := 7 },
        stderr := some { fd := 8 }, backup := [] }).1 =
      .error (.internal "Attempted to close an invalid RustFd") ∧
    ¬ ((7 : Int) ∈ (ProcIo.close_all (fun _ => true)
      { stdin := some { fd := -1 }, stdout := some { fd := 7 },
        stderr := some { fd := 8 }, backup := [] }).2) := by
  exact ⟨rfl, rfl, by decide⟩

/-- A close attempt succeeds iff the wrapper check passes (descriptor
number positive) and the kernel accepts the close. -/
def close_ok (osClose : Int → Bool) (f : RustFd) : Bool :=
  f.is_valid && osClose f.fd

/-- The descriptors an I/O bundle holds, in the order close_all visits
them. -/
def held_fds (io : ProcIo) : List RustFd :=
  io.stdin.toList ++ io.stdout.toList ++ io.stderr.toList

/-- The close attempts the amended claim describes: each held descriptor
in order up to and including the first failing one. -/
def attempted_closes (osClose : Int → Bool) : List RustFd → List Int
  | [] => []
  | f :: rest =>
    if close_ok osClose f then f.fd :: attempted_closes osClose rest
    else [f.fd]

lemma close_step_none (osClose : Int → Bool) :
    close_step osClose none = (.ok (), []) := rfl

lemma close_step_some (osClose : Int → Bool) (f : RustFd) :
    close_step osClose (some f) =
      if close_ok osClose f then (.ok (), [f.fd])
      else (.error (if f.is_valid then ShError.ioErr
        else .internal "Attempted to close an invalid RustFd"), [f.fd]) := by
  unfold close_step RustFd.close close_ok
  by_cases hv : f.is_valid
  · by_cases hc : osClose f.fd
    · simp [hv, hc]
    · simp [hv, hc]
  · simp [hv]

/-- C6 amended: close_all attempts the closes of stdin, stdout, stderr in
that order but stops at the first failing close, whose error it returns,
leaving the later descriptors unattempted; it returns Ok exactly when
every held descriptor closes successfully. -/
theorem close_all_first_error (osClose : Int → Bool) (io : ProcIo) :
    (ProcIo.close_all osClose io).2 =
      attempted_closes osClose (held_fds io) ∧
    ((ProcIo.close_all osClose io).1.isOk = true ↔
      ∀ f ∈ held_fds io, close_ok osClose f = true) := by
  obtain ⟨si, so, se, bk⟩ := io
  unfold ProcIo.close_all held_fds
  rcases si with - | f
  all_goals rcases so with - | g
  all_goals rcases se with - | h
  all_goals simp only [close_step_none, close_step_some, Option.toList]
  all_goals try by_cases hf : close_ok osClose f
  all_goals try by_cases hg : close_ok osClose g
  all_goals try by_cases hh : close_ok osClose h
  all_goals simp_all [attempted_closes, Except.isOk, Except.toBool]

/-- Association-list lookup with integer keys, first binding wins; models
both the process file-descriptor table and HashMap lookups (the backup
map of ProcIO has disjoint keys 0, 1, 2, so hash-iteration order is
irrelevant). -/
def alist_get {α : Type} : List (Int × α) → Int → Option α
  | [], _ => none
  | (k, v) :: rest, key => if key = k then some v else alist_get rest key

/-- Removing every binding of a key from an association list. -/
def alist_remove {α : Type} : List (Int × α) → Int → List (Int × α)
  | [], _ => []
  | (k, v) :: rest, key =>
    if k = key then alist_remove rest key else (k, v) :: alist_remove rest key

/-- The process file-descriptor table: descriptor number to an abstract
identifier of the open file description it refers to. -/
abbrev FdTable := List (Int × Nat)

/-- Installing a descriptor: the new binding shadows any previous one. -/
def set_fd (t : FdTable) (fd : Int) (r : Nat) : FdTable := (fd, r) :: t

/-- The dup(2) syscall: duplicates the description under src onto the
kernel-chosen fresh descriptor newfd; fails (EBADF, mapped by the code to
an I/O ShError) if src is closed.  Used by RustFd::from_stdin,
from_stdout and from_stderr with src 0, 1, 2. -/
def sys_dup (t : FdTable) (src newfd : Int) : Except ShError FdTable :=
  match alist_get t src with
  | none => .error .ioErr
  | some r => .ok (set_fd t newfd r)

/-- The dup2(2) syscall: duplicates the description under src onto tgt. -/
def sys_dup2 (t : FdTable) (src tgt : Int) : Except ShError FdTable :=
  match alist_get t src with
  | none => .error .ioErr
  | some r => .ok (set_fd t tgt r)

/-- The close(2) syscall: removes an open descriptor, EBADF otherwise. -/
def sys_close (t : FdTable) (fd : Int) : Except ShError FdTable :=
  match alist_get t fd with
  | none => .error .ioErr
  | some _ => .ok (alist_remove t fd)

/-- RustFd::dup2 (src/src/execute.rs lines 200-212) acting on the
file-descriptor table: a no-op when source and target numbers coincide,
an error when the wrapper validity checks fail (is_valid tests fd > 0),
otherwise the dup2 syscall. -/
def rustfd_dup2_t (t : FdTable) (self tgt : Int) : Except ShError FdTable :=
  if self = tgt then .ok t
  else if self ≤ 0 then .error .ioErr
  else if tgt < 0 then .error .ioErr
  else sys_dup2 t self tgt

/-- RustFd::close (src/src/execute.rs lines 220-227) acting on the
file-descriptor table. -/
def rustfd_close_t (t : FdTable) (fd : Int) : Except ShError FdTable :=
  if fd ≤ 0 then .error (.internal "Attempted to close an invalid RustFd")
  else sys_close t fd

/-- ProcIO::backup_fildescs from src/src/execute.rs lines 360-372:
duplicates descriptors 0, 1, 2 (RustFd::from_stdin/out/err) and stores
the duplicates in a fresh backup map under keys 0, 1, 2.  The
kernel-chosen duplicate numbers are the explicit parameters a, b, c. -/
def backup_fildescs (t : FdTable) (a b c : Int) :
    Except ShError (FdTable × List (Int × Int)) :=
  match sys_dup t 0 a with
  | .error e => .error e
  | .ok t1 =>
    match sys_dup t1 1 b with
    | .error e => .error e
    | .ok t2 =>
      match sys_dup t2 2 c with
      | .error e => .error e
      | .ok t3 => .ok (t3, [(0, a), (1, b), (2, c)])

/-- One if-let block of ProcIO::restore_fildescs: if the backup map holds
key, remove it, dup2 the saved duplicate back onto key and close the
duplicate. -/
def restore_one (st : FdTable × List (Int × Int)) (key : Int) :
    Except ShError (FdTable × List (Int × Int)) :=
  match alist_get st.2 key with
  | none => .ok st
  | some saved =>
    match rustfd_dup2_t st.1 saved key with
    | .error e => .error e
    | .ok t1 =>
      match rustfd_close_t t1 saved with
      | .error e => .error e
      | .ok t2 => .ok (t2, alist_remove st.2 key)

/-- ProcIO::restore_fildescs from src/src/execute.rs lines 373-391: if
the backup map is nonempty, restore keys 0, 1, 2 in that order. -/
def restore_fildescs (t : FdTable) (backup : List (Int × Int)) :
    Except ShError (FdTable × List (Int × Int)) :=
  if backup = [] then .ok (t, backup)
  else
    match restore_one (t, backup) 0 with
    | .error e => .error e
    | .ok st1 =>
      match restore_one st1 1 with
      | .error e => .error e
      | .ok st2 => restore_one st2 2

/-- backup_fildescs followed immediately by restore_fildescs, as in
fork_instruction. -/
def backup_then_restore (t : FdTable) (a b c : Int) :
    Except ShError (FdTable × List (Int × Int)) :=
  match backup_fildescs t a b c with
  | .error e => .error e
  | .ok st => restore_fildescs st.1 st.2

/-- C4: with 0, 1, 2 open and a, b, c the fresh positive descriptor
numbers chosen by the kernel for the three duplicates, backing up the
standard streams and then restoring them succeeds, drains the backup map
completely, and leaves descriptors 0, 1, 2 referring to the same
underlying resources as before the backup. -/
theorem backup_restore_roundtrip (t : FdTable) (a b c : Int) (r0 r1 r2 : Nat)
    (h0 : alist_get t 0 = some r0) (h1 : alist_get t 1 = some r1)
    (h2 : alist_get t 2 = some r2)
    (ha : 0 < a) (hb : 0 < b) (hc : 0 < c)
    (hta : alist_get t a = none) (htb : alist_get t b = none)
    (htc : alist_get t c = none)
    (hab : a ≠ b) (hac : a ≠ c) (hbc : b ≠ c) :
    ∃ t', backup_then_restore t a b c = .ok (t', []) ∧
      alist_get t' 0 = some r0 ∧ alist_get t' 1 = some r1 ∧
      alist_get t' 2 = some r2 := by
  have ha0 : a ≠ 0 := by
    intro h
    subst h
    rw [h0] at hta
    exact Option.noConfusion hta
  have ha1 : a ≠ 1 := by
    intro h
    subst h
    rw [h1] at hta
    exact Option.noConfusion hta
  have ha2 : a ≠ 2 := by
    intro h
    subst h
    rw [h2] at hta
    exact Option.noConfusion hta
  have hb0 : b ≠ 0 := by
    intro h
    subst h
    rw [h0] at htb
    exact Option.noConfusion htb
  have hb1 : b ≠ 1 := by
    intro h
    subst h
    rw [h1] at htb
    exact Option.noConfusion htb
  have hb2 : b ≠ 2 := by
    intro h
    subst h
    rw [h2] at htb
    exact Option.noConfusion htb
  have hc0 : c ≠ 0 := by
    intro h
    subst h
    rw [h0] at htc
    exact Option.noConfusion htc
  have hc1 : c ≠ 1 := by
    intro h
    subst h
    rw [h1] at htc
    exact Option.noConfusion htc
  have hc2 : c ≠ 2 := by
    intro h
    subst h
    rw [h2] at htc
    exact Option.noConfusion htc
  have hale : ¬ a ≤ 0 := not_le.mpr ha
  have hble : ¬ b ≤ 0 := not_le.mpr hb
  have hcle : ¬ c ≤ 0 := not_le.mpr hc
  refine ⟨alist_remove (set_fd (alist_remove (set_fd (alist_remove
    (set_fd (set_fd (set_fd (set_fd t a r0) b r1) c r2) 0 r0) a) 1 r1) b)
    2 r2) c, ?_, ?_, ?_, ?_⟩
  all_goals simp [backup_then_restore, backup_fildescs, restore_fildescs,
    restore_one, rustfd_dup2_t, rustfd_close_t, sys_dup, sys_dup2,
    sys_close, set_fd, alist_get, alist_remove, h0, h1, h2,
    ha0, ha1, ha2, hb0, hb1, hb2, hc0, hc1, hc2, hab, hac, hbc,
    hale, hble, hcle, Ne.symm hab, Ne.symm hac, Ne.symm hbc,
    Ne.symm ha0, Ne.symm ha1, Ne.symm ha2, Ne.symm hb0, Ne.symm hb1,
    Ne.symm hb2, Ne.symm hc0, Ne.symm hc1, Ne.symm hc2]

/-- Witness for C4 at a concrete table holding resources 10, 11, 12 under
descriptors 0, 1, 2 and kernel-chosen duplicates 3, 4, 5. -/
theorem backup_restore_roundtrip_witness :
    alist_get [((0 : Int), (10 : Nat)), (1, 11), (2, 12)] 0 = some 10 ∧
    ∃ t', backup_then_restore [((0 : Int), (10 : Nat)), (1, 11), (2, 12)]
        3 4 5 = .ok (t', []) ∧
      alist_get t' 0 = some 10 ∧ alist_get t' 1 = some 11 ∧
      alist_get t' 2 = some 12 := by
  refine ⟨by decide, ?_⟩
  exact backup_restore_roundtrip [(0, 10), (1, 11), (2, 12)] 3 4 5 10 11 12
    (by decide) (by decide) (by decide) (by decide) (by decide) (by decide)
    (by decide) (by decide) (by decide) (by decide) (by decide) (by decide)

/-- Redirection operations.  The defining enum lives in interp/token.rs,
which is not under src; the resolver handle_redirs distinguishes exactly
Input, Output and Append and treats every other operation as a defect
(unimplemented), so the remaining variants are represented by the heredoc
and herestring forms named by the spec. -/
inductive RedirType where
  | Input
  | Output
  | Append
  | Heredoc
  | Herestring
  deriving DecidableEq, Repr

/-- A redirection directive, with the fields destructured by
handle_redirs (src/src/execute.rs lines 861-896): source descriptor
number, operation, optional target descriptor number, optional target
path. -/
structure Redir where
  fd_source : Int
  op : RedirType
  fd_target : Option Int
  file_target : Option String
  deriving DecidableEq, Repr

/-- Open flag bits used by handle_redirs. -/
inductive Oflag where
  | O_RDONLY
  | O_WRONLY
  | O_CREAT
  | O_TRUNC
  | O_APPEND
  deriving DecidableEq, Repr

/-- The flag sets derived from the operation in handle_redirs; none is
the unimplemented arm. -/
def redir_open_flags : RedirType → Option (List Oflag)
  | .Input => some [.O_RDONLY]
  | .Output => some [.O_WRONLY, .O_CREAT, .O_TRUNC]
  | .Append => some [.O_WRONLY, .O_CREAT, .O_APPEND]
  | _ => none

/-- Observable descriptor operations performed by handle_redirs: opening
a path (with flags, mode bits and the kernel-chosen descriptor), a dup2
of src onto tgt, and a close. -/
inductive FdEvent where
  | openFile (path : String) (flags : List Oflag) (mode : Nat) (ret : Int)
  | dup2ev (src tgt : Int)
  | closeEv (fd : Int)
  deriving DecidableEq, Repr

/-- A failure outcome of handle_redirs: either an ShError propagated with
the question-mark operator, or a panic (unimplemented / unwrap on
None). -/
inductive Fault where
  | shErr (e : ShError)
  | panicked
  deriving DecidableEq, Repr

/-- The first loop of handle_redirs (src/src/execute.rs lines 865-884):
directives with a descriptor target are pushed onto fd_dupes; directives
with a path target are resolved immediately (RustFd::new on the source,
flags from the operation, open with mode 0o644 returning the
kernel-chosen descriptor alloc n, dup2 of the new descriptor onto the
source — a no-op if they coincide — close of the new descriptor, source
pushed onto fd_queue); directives with neither target are skipped.
alloc n = none models a failing open. -/
def handle_redirs_pass1 (alloc : Nat → Option Int) :
    List Redir → Nat → List FdEvent → List Int → List Redir →
    Except Fault (Nat × List FdEvent × List Int × List Redir)
  | [], n, evs, queue, dupes => .ok (n, evs, queue, dupes)
  | r :: rest, n, evs, queue, dupes =>
    if r.fd_target.isSome then
      handle_redirs_pass1 alloc rest n evs queue (dupes ++ [r])
    else
      match r.file_target with
      | none => handle_redirs_pass1 alloc rest n evs queue dupes
      | some path =>
        if r.fd_source < 0 then
          .error (.shErr
            (.internal "Attempted to create a new RustFd from a negative FD"))
        else
          match redir_open_flags r.op with
          | none => .error .panicked
          | some flags =>
            match alloc n with
            | none => .error (.shErr .ioErr)
            | some f =>
              if f = r.fd_source then
                if f ≤ 0 then
                  .error (.shErr
                    (.internal "Attempted to close an invalid RustFd"))
                else
                  handle_redirs_pass1 alloc rest (n + 1)
                    (evs ++ [.openFile path flags 0o644 f, .closeEv f])
                    (queue ++ [r.fd_source]) dupes
              else if f ≤ 0 then .error (.shErr .ioErr)
              else
                handle_redirs_pass1 alloc rest (n + 1)
                  (evs ++ [.openFile path flags 0o644 f,
                    .dup2ev f r.fd_source, .closeEv f])
                  (queue ++ [r.fd_source]) dupes

/-- The second loop of handle_redirs (src/src/execute.rs lines 886-893):
for each deferred directive, RustFd::new on target and source, dup2 of
the target descriptor onto the source descriptor (a no-op if they
coincide), close of the target descriptor, source pushed onto
fd_queue. -/
def handle_redirs_pass2 :
    List Redir → List FdEvent → List Int →
    Except Fault (List FdEvent × List Int)
  | [], evs, queue => .ok (evs, queue)
  | r :: rest, evs, queue =>
    match r.fd_target with
    | none => .error .panicked
    | some tgt =>
      if tgt < 0 then
        .error (.shErr
          (.internal "Attempted to create a new RustFd from a negative FD"))
      else if r.fd_source < 0 then
        .error (.shErr
          (.internal "Attempted to create a new RustFd from a negative FD"))
      else if tgt = r.fd_source then
        if tgt ≤ 0 then
          .error (.shErr (.internal "Attempted to close an invalid RustFd"))
        else
          handle_redirs_pass2 rest (evs ++ [.closeEv tgt])
            (queue ++ [r.fd_source])
      else if tgt ≤ 0 then .error (.shErr .ioErr)
      else
        handle_redirs_pass2 rest
          (evs ++ [.dup2ev tgt r.fd_source, .closeEv tgt])
          (queue ++ [r.fd_source])

/-- handle_redirs from src/src/execute.rs lines 861-896: the immediate
pass over the given directives followed by the deferred
descriptor-to-descriptor pass, returning the performed descriptor
operations in order and the queue of saved source descriptors. -/
def handle_redirs (alloc : Nat → Option Int) (redirs : List Redir) :
    Except Fault (List FdEvent × List Int) :=
  match handle_redirs_pass1 alloc redirs 0 [] [] [] with
  | .error e => .error e
  | .ok (_, evs, queue, dupes) => handle_redirs_pass2 dupes evs queue

/-- A directive resolved in the immediate pass: path target, no
descriptor target. -/
def is_path_redir (r : Redir) : Bool :=
  r.fd_target.isNone && r.file_target.isSome

/-- A directive deferred to the second pass: descriptor target. -/
def is_dupe_redir (r : Redir) : Bool := r.fd_target.isSome

/-- The event sequence the spec describes for the path directives, in the
order given: open the path with the flags derived from the operation and
mode 0o644, duplicate the new handle onto the source descriptor, close
it. -/
def spec_path_events (alloc : Nat → Option Int) :
    List Redir → Nat → List FdEvent
  | [], _ => []
  | r :: rest, n =>
    match r.file_target, redir_open_flags r.op, alloc n with
    | some path, some flags, some f =>
      .openFile path flags 0o644 f :: .dup2ev f r.fd_source :: .closeEv f ::
        spec_path_events alloc rest (n + 1)
    | _, _, _ => []

/-- The event sequence the spec describes for the deferred
descriptor-to-descriptor directives, in the order given: duplicate the
target descriptor onto the source descriptor and close the target
descriptor. -/
def spec_dupe_events : List Redir → List FdEvent
  | [] => []
  | r :: rest =>
    match r.fd_target with
    | some tgt => .dup2ev tgt r.fd_source :: .closeEv tgt ::
        spec_dupe_events rest
    | none => spec_dupe_events rest

lemma handle_redirs_pass2_spec :
    ∀ (dupes : List Redir) (evs : List FdEvent) (queue : List Int),
    (∀ r ∈ dupes, 0 ≤ r.fd_source) →
    (∀ r ∈ dupes, ∀ tgt, r.fd_target = some tgt →
      0 < tgt ∧ tgt ≠ r.fd_source) →
    (∀ r ∈ dupes, r.fd_target.isSome = true) →
    handle_redirs_pass2 dupes evs queue =
      .ok (evs ++ spec_dupe_events dupes,
        queue ++ dupes.map (fun r => r.fd_source))
  | [], evs, queue, _, _, _ => by
    simp [handle_redirs_pass2, spec_dupe_events]
  | r :: rest, evs, queue, hsrc, htgt, hdupe => by
    obtain ⟨tgt, htg⟩ := Option.isSome_iff_exists.mp (hdupe r (by simp))
    obtain ⟨htpos, htne⟩ := htgt r (by simp) tgt htg
    have hs : ¬ r.fd_source < 0 := not_lt.mpr (hsrc r (by simp))
    have ih := handle_redirs_pass2_spec rest (evs ++ [.dup2ev tgt r.fd_source,
        .closeEv tgt]) (queue ++ [r.fd_source])
      (fun x hx => hsrc x (List.mem_cons_of_mem r hx))
      (fun x hx => htgt x (List.mem_cons_of_mem r hx))
      (fun x hx => hdupe x (List.mem_cons_of_mem r hx))
    simp only [handle_redirs_pass2, htg]
    rw [if_neg (not_lt.mpr (le_of_lt htpos)), if_neg hs, if_neg htne,
      if_neg (not_le.mpr htpos), ih]
    simp [spec_dupe_events, htg]

lemma handle_redirs_pass1_spec (alloc : Nat → Option Int) :
    ∀ (redirs : List Redir) (n : Nat) (evs : List FdEvent)
      (queue : List Int) (dupes : List Redir),
    (∀ r ∈ redirs, 0 ≤ r.fd_source) →
    (∀ r ∈ redirs, is_path_redir r = true →
      (redir_open_flags r.op).isSome = true) →
    (∀ m, ∃ f, alloc m = some f ∧ 0 < f ∧ ∀ r ∈ redirs, f ≠ r.fd_source) →
    handle_redirs_pass1 alloc redirs n evs queue dupes =
      .ok (n + (redirs.filter is_path_redir).length,
        evs ++ spec_path_events alloc (redirs.filter is_path_redir) n,
        queue ++ (redirs.filter is_path_redir).map (fun r => r.fd_source),
        dupes ++ redirs.filter is_dupe_redir)
  | [], n, evs, queue, dupes, _, _, _ => by
    simp [handle_redirs_pass1, spec_path_events]
  | r :: rest, n, evs, queue, dupes, hsrc, hop, halloc => by
    have hsrc' := fun x hx => hsrc x (List.mem_cons_of_mem r hx)
    have hop' := fun x hx => hop x (List.mem_cons_of_mem r hx)
    have halloc' : ∀ m, ∃ f, alloc m = some f ∧ 0 < f ∧
        ∀ x ∈ rest, f ≠ x.fd_source := fun m => by
      obtain ⟨f, h1, h2, h3⟩ := halloc m
      exact ⟨f, h1, h2, fun x hx => h3 x (List.mem_cons_of_mem r hx)⟩
    by_cases ht : r.fd_target.isSome
    · have hpath : is_path_redir r = false := by
        simp [is_path_redir, Option.isNone_iff_eq_none,
          Option.isSome_iff_exists.mp ht]
        obtain ⟨tgt, htg⟩ := Option.isSome_iff_exists.mp ht
        simp [htg]
      have hdupe : is_dupe_redir r = true := ht
      simp only [handle_redirs_pass1]
      rw [if_pos ht,
        handle_redirs_pass1_spec alloc rest n evs queue (dupes ++ [r])
          hsrc' hop' halloc']
      rw [List.filter_cons_of_neg (by simp [hpath]),
        List.filter_cons_of_pos (by simp [hdupe])]
      simp
    · have htn : r.fd_target = none := Option.not_isSome_iff_eq_none.mp ht
      have hdupe : is_dupe_redir r = false := by
        simp [is_dupe_redir, htn]
      rcases hfile : r.file_target with - | path
      · have hpath : is_path_redir r = false := by
          simp [is_path_redir, hfile]
        simp only [handle_redirs_pass1]
        rw [if_neg (by simp [ht]), hfile,
          handle_redirs_pass1_spec alloc rest n evs queue dupes
            hsrc' hop' halloc']
        rw [List.filter_cons_of_neg (by simp [hpath]),
          List.filter_cons_of_neg (by simp [hdupe])]
      · have hpath : is_path_redir r = true := by
          simp [is_path_redir, hfile, htn]
        obtain ⟨flags, hflags⟩ :=
          Option.isSome_iff_exists.mp (hop r (by simp) hpath)
        obtain ⟨f, haf, hfpos, hfne⟩ := halloc n
        have hfner := hfne r (by simp)
        have hs : ¬ r.fd_source < 0 := not_lt.mpr (hsrc r (by simp))
        simp only [handle_redirs_pass1]
        rw [if_neg (by simp [ht])]
        simp only [hfile]
        rw [if_neg hs]
        simp only [hflags, haf]
        rw [if_neg hfner, if_neg (not_le.mpr hfpos),
          handle_redirs_pass1_spec alloc rest (n + 1)
            (evs ++ [FdEvent.openFile path flags 0o644 f,
              FdEvent.dup2ev f r.fd_source, FdEvent.closeEv f])
            (queue ++ [r.fd_source]) dupes hsrc' hop' halloc']
        rw [List.filter_cons_of_pos (by simp [hpath]),
          List.filter_cons_of_neg (by simp [hdupe])]
        simp only [Except.ok.injEq, Prod.mk.injEq]
        refine ⟨by simp; omega, ?_, ?_, ?_⟩
        · rw [spec_path_events, hfile, hflags, haf]
          simp
        · simp
        · simp

/-- C5: under the preconditions of a successful resolution (source
descriptors non-negative, path operations among input/output/append,
descriptor targets positive and distinct from their source, and
kernel-chosen open descriptors positive and distinct from every source
descriptor), handle_redirs performs the path-target directives first, in
the order given, each as open (with the operation-derived flags and mode
0o644) followed by dup2 onto the source descriptor and close, and only
afterwards the deferred descriptor-to-descriptor directives in the order
given; the returned queue holds exactly one saved source descriptor per
overwritten source, path sources first. -/
theorem handle_redirs_two_pass (alloc : Nat → Option Int)
    (redirs : List Redir)
    (hsrc : ∀ r ∈ redirs, 0 ≤ r.fd_source)
    (hop : ∀ r ∈ redirs, is_path_redir r = true →
      (redir_open_flags r.op).isSome = true)
    (htgt : ∀ r ∈ redirs, ∀ tgt, r.fd_target = some tgt →
      0 < tgt ∧ tgt ≠ r.fd_source)
    (halloc : ∀ m, ∃ f, alloc m = some f ∧ 0 < f ∧
      ∀ r ∈ redirs, f ≠ r.fd_source) :
    handle_redirs alloc redirs =
      .ok (spec_path_events alloc (redirs.filter is_path_redir) 0 ++
          spec_dupe_events (redirs.filter is_dupe_redir),
        (redirs.filter is_path_redir).map (fun r => r.fd_source) ++
          (redirs.filter is_dupe_redir).map (fun r => r.fd_source)) := by
  unfold handle_redirs
  rw [handle_redirs_pass1_spec alloc redirs 0 [] [] [] hsrc hop halloc]
  have hmem : ∀ r ∈ redirs.filter is_dupe_redir, r ∈ redirs :=
    fun r hr => (List.mem_filter.mp hr).1
  have hdupe : ∀ r ∈ redirs.filter is_dupe_redir, r.fd_target.isSome = true :=
    fun r hr => (List.mem_filter.mp hr).2
  simp only [List.nil_append]
  exact handle_redirs_pass2_spec (redirs.filter is_dupe_redir)
    (spec_path_events alloc (redirs.filter is_path_redir) 0)
    ((redirs.filter is_path_redir).map (fun r => r.fd_source))
    (fun r hr => hsrc r (hmem r hr))
    (fun r hr => htgt r (hmem r hr)) hdupe

/-- Witness for C5: the directive sequence 1 into out.txt, duplicate 1
onto 2, 0 from in.txt (written in the order output, descriptor-dupe,
input) with kernel-chosen open descriptor 9: both path directives are
applied first, in order and with the operation-derived flags and mode
0o644, then the deferred descriptor-to-descriptor directive, and the
queue holds the three overwritten source descriptors. -/
theorem handle_redirs_two_pass_witness :
    handle_redirs (fun _ => some 9)
      [{ fd_source := 1, op := RedirType.Output, fd_target := none,
         file_target := some "out.txt" },
       { fd_source := 2, op := RedirType.Output, fd_target := some 1,
         file_target := none },
       { fd_source := 0, op := RedirType.Input, fd_target := none,
         file_target := some "in.txt" }] =
      .ok ([FdEvent.openFile "out.txt"
              [Oflag.O_WRONLY, Oflag.O_CREAT, Oflag.O_TRUNC] 0o644 9,
            FdEvent.dup2ev 9 1, FdEvent.closeEv 9,
            FdEvent.openFile "in.txt" [Oflag.O_RDONLY] 0o644 9,
            FdEvent.dup2ev 9 0, FdEvent.closeEv 9,
            FdEvent.dup2ev 1 2, FdEvent.closeEv 1],
           [1, 0, 2]) := by
  have h := handle_redirs_two_pass (fun _ => some 9)
    [{ fd_source := 1, op := RedirType.Output, fd_target := none,
       file_target := some "out.txt" },
     { fd_source := 2, op := RedirType.Output, fd_target := some 1,
       file_target := none },
     { fd_source := 0, op := RedirType.Input, fd_target := none,
       file_target := some "in.txt" }]
    (by decide) (by decide)
    (by
      intro r hr tgt htg
      simp only [List.mem_cons, List.not_mem_nil, or_false] at hr
      rcases hr with rfl | rfl | rfl
      · exact Option.noConfusion htg
      · have h1 : (1 : Int) = tgt := Option.some.inj htg
        subst h1
        exact ⟨by decide, by decide⟩
      · exact Option.noConfusion htg)
    (fun m => ⟨9, rfl, by decide, by decide⟩)
  exact h.trans (by rfl)
